import Mathlib

/-!
Verification development for the "world" repository: a shallow embedding of
its simulation core (cube wander simulation, player jump physics, circular
world bounds, spawn placement planner, overlay-gated input manager) over the
rational numbers, together with theorems settling the specification claims.

Modelling conventions:
* JavaScript numbers are modelled as exact rationals.  The transcendental
  library primitives the code calls (Math.sqrt, Math.cos, Math.sin, Math.PI)
  are not rational-valued, so they are modelled as oracle parameters bundled
  in a JsMath record; theorems that depend on the value of a square root
  assume its defining property at exactly the arguments the code uses.
* Math.random() results are passed in as explicit parameters (a stream
  indexed by the order in which the code draws them).
* Comparisons of the form sqrt s < c with c >= 0 and s >= 0 are equivalent to
  s < c * c because the real square root is monotone; where a function only
  uses a square root inside such a comparison (the spawn planner validity
  check) the embedding uses the squared comparison directly, which is exact.
-/

/-- Rational stand-ins for the JavaScript Math primitives the code calls. -/
structure JsMath where
  sqrtQ : ℚ → ℚ
  cosQ : ℚ → ℚ
  sinQ : ℚ → ℚ
  piQ : ℚ

/-- Plain 3-component vector, as in the GameState Vec3 / Babylon Vector3. -/
structure Vec3q where
  x : ℚ
  y : ℚ
  z : ℚ
deriving DecidableEq, Repr

/-- Squared Vector3.Distance (3D euclidean distance, squared). -/
def distSqV (a b : Vec3q) : ℚ :=
  (a.x - b.x) ^ 2 + (a.y - b.y) ^ 2 + (a.z - b.z) ^ 2

/-- World.isInBounds from src/core/World.ts:
    distanceFromCenter = sqrt(x*x + z*z); return distanceFromCenter <= radius - padding. -/
def isInBounds (m : JsMath) (radius : ℚ) (position : Vec3q) (padding : ℚ) : Prop :=
  m.sqrtQ (position.x * position.x + position.z * position.z) ≤ radius - padding

/-- World.clampToBounds from src/core/World.ts: if the planar distance from
    the origin exceeds radius - padding, scale x and z by
    (radius - padding) / distance, preserving y; otherwise return the
    position unchanged (the code returns a clone, which is value-equal). -/
def clampToBounds (m : JsMath) (radius : ℚ) (position : Vec3q) (padding : ℚ) : Vec3q :=
  let maxRadius := radius - padding
  let distanceFromCenter := m.sqrtQ (position.x * position.x + position.z * position.z)
  if maxRadius < distanceFromCenter then
    let scale := maxRadius / distanceFromCenter
    ⟨position.x * scale, position.y, position.z * scale⟩
  else
    position

/-- CubeState from the GameState module (id omitted animation params kept). -/
structure CubeState where
  id : String
  position : Vec3q
  rotation : Vec3q
  targetPosition : Vec3q
  isHovered : Bool
  time : ℚ
  wanderSpeed : ℚ
  floatFrequency : ℚ
  rotationSpeed : ℚ
deriving DecidableEq, Repr

/-- One loop-body iteration of StateManager.simulateCubes (the per-cube tick):
    advance time, apply float/spin, then either retarget (when the planar
    distance to the target is below 0.5 or the planar distance from the
    center is at least radius - 8) or move toward the target at speed
    wanderSpeed * min(dist / 5, 1).  u1 and u2 are the two Math.random()
    draws the retarget branch consumes (in code order: angle then radius). -/
def simulateCubeStep (m : JsMath) (worldRadius deltaTime u1 u2 : ℚ) (c : CubeState) :
    CubeState :=
  let boundaryBuffer : ℚ := 8
  let baseY : ℚ := 3
  let floatAmplitude : ℚ := 3 / 10
  let time1 := c.time + deltaTime
  let posY := baseY + m.sinQ (time1 * c.floatFrequency) * floatAmplitude
  let rotY := c.rotation.y + c.rotationSpeed * deltaTime
  let rotX := m.sinQ (time1 * (1 / 2)) * (1 / 10)
  let dx := c.targetPosition.x - c.position.x
  let dz := c.targetPosition.z - c.position.z
  let dist := m.sqrtQ (dx * dx + dz * dz)
  let distFromCenter := m.sqrtQ (c.position.x ^ 2 + c.position.z ^ 2)
  if dist < 1 / 2 ∨ worldRadius - boundaryBuffer ≤ distFromCenter then
    let maxR := worldRadius - boundaryBuffer
    let angle := u1 * m.piQ * 2
    let r := m.sqrtQ u2 * maxR
    { c with
      time := time1
      position := ⟨c.position.x, posY, c.position.z⟩
      rotation := ⟨rotX, rotY, c.rotation.z⟩
      targetPosition := ⟨m.cosQ angle * r, baseY, m.sinQ angle * r⟩ }
  else
    let speed := c.wanderSpeed * min (dist / 5) 1
    { c with
      time := time1
      position :=
        ⟨c.position.x + dx / dist * speed * deltaTime, posY,
         c.position.z + dz / dist * speed * deltaTime⟩
      rotation := ⟨rotX, rotY, c.rotation.z⟩ }

/-- Modelled from the spec (section 4.4): the smoothstep-like easing the spec
    ascribes to the wander speed, for comparison against the code, which is
    not part of the source. -/
def specEase (t : ℚ) : ℚ :=
  if t < 1 / 2 then 2 * t ^ 2 else 1 - 2 * (1 - t) ^ 2 / 2

/-- Player.handleJump state: vertical position, vertical velocity, and the
    InputManager jump latch (consumeJump is only called when grounded, so the
    latch survives an airborne tick). -/
structure PlayerPhys where
  y : ℚ
  vy : ℚ
  jumpRequested : Bool
deriving DecidableEq, Repr

/-- Player.handleJump from src/entities/Player.ts (identical in both player
    variants), with the overlay gate closed: grounded test against
    groundY = 1.7, jump consumption (clearing the latch) only when grounded,
    gravity integration with gravity = 20 and jumpForce = 8, then the
    one-plane ground collision clamp. -/
def handleJump (deltaTime : ℚ) (s : PlayerPhys) : PlayerPhys :=
  let groundY : ℚ := 17 / 10
  let isGrounded := s.y ≤ groundY
  let consumed := isGrounded ∧ s.jumpRequested = true
  let jumpReq1 : Bool := if isGrounded then false else s.jumpRequested
  let vy1 := (if consumed then (8 : ℚ) else s.vy) - 20 * deltaTime
  let y1 := s.y + vy1 * deltaTime
  if y1 < groundY then ⟨groundY, 0, jumpReq1⟩ else ⟨y1, vy1, jumpReq1⟩

/-- One touch point of a TouchEvent: identifier, clientX, clientY. -/
structure Touch where
  tid : ℤ
  clientX : ℚ
  clientY : ℚ
deriving DecidableEq, Repr

/-- State of the overlay-gated InputManager variant (the one constructed with
    a UISystem, second file of src/systems/SpawnSystem.ts).  The overlay
    visibility is read from the UISystem at event/accessor time, so it is
    passed to each operation as a Bool argument rather than stored here. -/
structure InputMgr where
  keys : List String
  lookDeltaX : ℚ
  lookDeltaY : ℚ
  jumpRequested : Bool
  isDragging : Bool
  isPointerLocked : Bool
  lastX : ℚ
  lastY : ℚ
  touchId : Option ℤ
  joyX : ℚ
  joyY : ℚ
deriving DecidableEq, Repr

/-- Fresh InputManager state (constructor field initializers). -/
def initInputMgr : InputMgr :=
  ⟨[], 0, 0, false, false, false, 0, 0, none, 0, 0⟩

/-- The keydown listener of the gated InputManager: ignored while the overlay
    is visible; otherwise records the key (Set.add) and latches the jump flag
    on the Space key. -/
def keydownHandler (visible : Bool) (code : String) (s : InputMgr) : InputMgr :=
  if visible then s
  else
    let s1 := { s with keys := if code ∈ s.keys then s.keys else s.keys ++ [code] }
    if code = "Space" then { s1 with jumpRequested := true } else s1

/-- The keyup listener of the gated InputManager: ignored while the overlay
    is visible; otherwise removes the key from the pressed set. -/
def keyupHandler (visible : Bool) (code : String) (s : InputMgr) : InputMgr :=
  if visible then s else { s with keys := s.keys.erase code }

/-- The pointer-locked mousemove listener: accumulates the raw movement into
    the stored look delta, but only when pointer-locked and the overlay is
    hidden. -/
def mouseMoveLockedHandler (visible : Bool) (movementX movementY : ℚ) (s : InputMgr) :
    InputMgr :=
  if s.isPointerLocked = true ∧ visible = false then
    { s with lookDeltaX := s.lookDeltaX + movementX, lookDeltaY := s.lookDeltaY + movementY }
  else s

/-- The touchstart listener: takes the first touch whose clientX exceeds
    30% of the window width, recording its identifier and position.  Note:
    this listener has no overlay-visibility guard in the source. -/
def touchStartHandler (innerWidth : ℚ) (touches : List Touch) (s : InputMgr) : InputMgr :=
  match touches.find? (fun t => decide (innerWidth * (3 / 10) < t.clientX)) with
  | some t => { s with touchId := some t.tid, lastX := t.clientX, lastY := t.clientY }
  | none => s

/-- The touchmove listener: for the tracked touch identifier, accumulates the
    client-position delta into the stored look delta and updates the last
    position.  Note: this listener has no overlay-visibility guard in the
    source, so look delta accumulates even while the overlay is open. -/
def touchMoveHandler (touches : List Touch) (s : InputMgr) : InputMgr :=
  match s.touchId with
  | none => s
  | some tid0 =>
    match touches.find? (fun t => decide (t.tid = tid0)) with
    | some t =>
      { s with
        lookDeltaX := s.lookDeltaX + (t.clientX - s.lastX)
        lookDeltaY := s.lookDeltaY + (t.clientY - s.lastY)
        lastX := t.clientX
        lastY := t.clientY }
    | none => s

/-- The touchend listener: clears the tracked identifier when it is among the
    changed touches. -/
def touchEndHandler (changedTouches : List Touch) (s : InputMgr) : InputMgr :=
  match s.touchId with
  | none => s
  | some tid0 =>
    if changedTouches.any (fun t => decide (t.tid = tid0)) then { s with touchId := none }
    else s

/-- InputManager.getMovement of the gated variant: zero while the overlay is
    visible; otherwise WASD/arrow contributions plus the joystick vector,
    rescaled to unit length only when its length exceeds 1. -/
def getMovement (m : JsMath) (visible : Bool) (s : InputMgr) : ℚ × ℚ :=
  if visible then (0, 0)
  else
    let my : ℚ :=
      (if "KeyW" ∈ s.keys ∨ "ArrowUp" ∈ s.keys then 1 else 0)
        + (if "KeyS" ∈ s.keys ∨ "ArrowDown" ∈ s.keys then -1 else 0) + s.joyY
    let mx : ℚ :=
      (if "KeyA" ∈ s.keys ∨ "ArrowLeft" ∈ s.keys then -1 else 0)
        + (if "KeyD" ∈ s.keys ∨ "ArrowRight" ∈ s.keys then 1 else 0) + s.joyX
    let len := m.sqrtQ (mx * mx + my * my)
    if 1 < len then (mx * (1 / len), my * (1 / len)) else (mx, my)

/-- InputManager.getLookDelta of the gated variant: the stored delta is
    cloned, then zeroed; while the overlay is visible the zero vector is
    returned instead of the clone (the store is still drained). -/
def getLookDelta (visible : Bool) (s : InputMgr) : (ℚ × ℚ) × InputMgr :=
  let drained := { s with lookDeltaX := 0, lookDeltaY := 0 }
  if visible then ((0, 0), drained) else ((s.lookDeltaX, s.lookDeltaY), drained)

/-- InputManager.consumeJump of the gated variant: while the overlay is
    visible the latch is cleared and false returned; otherwise the latch
    value is returned and cleared. -/
def consumeJump (visible : Bool) (s : InputMgr) : Bool × InputMgr :=
  if visible then (false, { s with jumpRequested := false })
  else (s.jumpRequested, { s with jumpRequested := false })

/-- InputManager.requestJump: sets the jump latch. -/
def requestJump (s : InputMgr) : InputMgr :=
  { s with jumpRequested := true }

/-! ## Spawn placement planner (src/systems/SpawnSystem.ts)

SpawnSystem.isValidPosition compares sqrt(x * x + z * z) < 10 and
Vector3.Distance(pos, other) < 8.  Both thresholds are nonnegative and the
real square root is monotone, so the comparisons are equivalent to the
squared comparisons x * x + z * z < 100 and distSq < 64 used here; this keeps
the validity check exact without a square-root oracle.

Math.random() draws are supplied by a stream indexed in the order the code
draws them; positions are paired with a Bool that is true exactly when the
position came from the final unconstrained fallback branch (the tag is an
observer annotation only — the untagged list of positions is the function
result). -/

/-- SpawnSystem.isValidPosition: reject when closer than 10 to the center or
    closer than 8 (3D distance; all placements have y = 0) to any existing
    position. -/
def isValidPosition (pos : Vec3q) (existing : List Vec3q) : Bool :=
  if pos.x * pos.x + pos.z * pos.z < 100 then false
  else existing.all (fun other => decide (64 ≤ distSqV pos other))

/-- Parameters of a planner run: math oracles, world radius, random stream. -/
structure PlaceCfg where
  m : JsMath
  radius : ℚ
  rand : ℕ → ℚ

/-- Math.ceil(Math.sqrt n) for a natural count. -/
def ceilSqrt (n : ℕ) : ℕ :=
  if Nat.sqrt n * Nat.sqrt n = n then Nat.sqrt n else Nat.sqrt n + 1

/-- Inner loop of generateDistributedPositions over one ring: for each slot
    index i, build the jittered candidate and push it only when
    isValidPosition accepts it (two random draws per slot, jitterR then
    jitterAngle).  Runs while i < cubesInRing and the count is not reached;
    fuel is the number of remaining slots.  Returns the tagged list and the
    next random index. -/
def innerLoop (cfg : PlaceCfg) (count : ℕ) (maxRadius ringRadius : ℚ) (rings ring : ℕ)
    (cubesInRing : ℕ) :
    ℕ → ℕ → List (Vec3q × Bool) → ℕ → List (Vec3q × Bool) × ℕ
  | _, 0, acc, k => (acc, k)
  | i, fuel + 1, acc, k =>
    if count ≤ acc.length then (acc, k)
    else
      let angle := ((i : ℚ) / (cubesInRing : ℚ)) * cfg.m.piQ * 2 + (ring : ℚ) * (1 / 2)
      let jitterR := (cfg.rand k - 1 / 2) * (maxRadius / (rings : ℚ)) * (1 / 2)
      let jitterAngle := (cfg.rand (k + 1) - 1 / 2) * (3 / 10)
      let r := ringRadius + jitterR
      let a := angle + jitterAngle
      let pos : Vec3q := ⟨cfg.m.cosQ a * r, 0, cfg.m.sinQ a * r⟩
      if isValidPosition pos (acc.map Prod.fst) then
        innerLoop cfg count maxRadius ringRadius rings ring cubesInRing
          (i + 1) fuel (acc ++ [(pos, false)]) (k + 2)
      else
        innerLoop cfg count maxRadius ringRadius rings ring cubesInRing
          (i + 1) fuel acc (k + 2)

/-- Ring loop of generateDistributedPositions: for ring = 1..rings while the
    count is not reached, compute the ring radius, the slot budget from the
    circumference divided by minDistanceBetweenCubes = 8 (capped by the
    remaining count), and run the inner loop.  Fuel is the number of
    remaining rings. -/
def ringLoop (cfg : PlaceCfg) (count : ℕ) (maxRadius : ℚ) (rings : ℕ) :
    ℕ → ℕ → List (Vec3q × Bool) → ℕ → List (Vec3q × Bool) × ℕ
  | _, 0, acc, k => (acc, k)
  | ring, fuel + 1, acc, k =>
    if count ≤ acc.length then (acc, k)
    else
      let ringRadius := ((ring : ℚ) / (rings : ℚ)) * maxRadius
      let circumference := 2 * cfg.m.piQ * ringRadius
      let cubesInRing : ℕ :=
        (min (Int.floor (circumference / 8)) ((count : ℤ) - (acc.length : ℤ))).toNat
      let res := innerLoop cfg count maxRadius ringRadius rings ring cubesInRing
        0 cubesInRing acc k
      ringLoop cfg count maxRadius rings (ring + 1) fuel res.1 res.2

/-- SpawnSystem.findRandomValidPosition: up to 50 attempts of uniform-area
    disc sampling (angle draw then radius draw), returning the first
    candidate isValidPosition accepts, or none. -/
def findRandomValid (cfg : PlaceCfg) (maxRadius : ℚ) :
    ℕ → List Vec3q → ℕ → Option Vec3q × ℕ
  | 0, _, k => (none, k)
  | att + 1, existing, k =>
    let angle := cfg.rand k * cfg.m.piQ * 2
    let r := 10 + cfg.m.sqrtQ (cfg.rand (k + 1)) * (maxRadius - 10)
    let pos : Vec3q := ⟨cfg.m.cosQ angle * r, 0, cfg.m.sinQ angle * r⟩
    if isValidPosition pos existing then (some pos, k + 2)
    else findRandomValid cfg maxRadius att existing (k + 2)

/-- Fill loop of generateDistributedPositions: while fewer than count
    positions exist, try findRandomValidPosition; on failure fall back to an
    unconstrained random point (tagged true).  Each iteration adds exactly
    one position, so count is sufficient fuel. -/
def fillLoop (cfg : PlaceCfg) (count : ℕ) (maxRadius : ℚ) :
    ℕ → List (Vec3q × Bool) → ℕ → List (Vec3q × Bool)
  | 0, acc, _ => acc
  | fuel + 1, acc, k =>
    if count ≤ acc.length then acc
    else
      match findRandomValid cfg maxRadius 50 (acc.map Prod.fst) k with
      | (some p, k1) => fillLoop cfg count maxRadius fuel (acc ++ [(p, false)]) k1
      | (none, k1) =>
        let angle := cfg.rand k1 * cfg.m.piQ * 2
        let r := 10 + cfg.rand (k1 + 1) * (maxRadius - 10)
        let pos : Vec3q := ⟨cfg.m.cosQ angle * r, 0, cfg.m.sinQ angle * r⟩
        fillLoop cfg count maxRadius fuel (acc ++ [(pos, true)]) (k1 + 2)

/-- SpawnSystem.generateDistributedPositions with the fallback-branch tag
    kept on each position: ring pass then fill loop, usable radius
    radius - 12. -/
def generateDistributedPositionsTagged (cfg : PlaceCfg) (count : ℕ) :
    List (Vec3q × Bool) :=
  let maxRadius := cfg.radius - 12
  let rings := ceilSqrt count
  let res := ringLoop cfg count maxRadius rings 1 rings [] 0
  fillLoop cfg count maxRadius count res.1 res.2

/-- SpawnSystem.generateDistributedPositions: the positions the planner
    returns. -/
def generateDistributedPositions (cfg : PlaceCfg) (count : ℕ) : List Vec3q :=
  (generateDistributedPositionsTagged cfg count).map Prod.fst

/-- Separation relation maintained by the planner on the tagged list: a later
    non-fallback position is at least 8 (squared: 64) away from every earlier
    position. -/
def sepR (a b : Vec3q × Bool) : Prop :=
  b.2 = false → 64 ≤ distSqV a.1 b.1

/-- Invariant of the planner accumulator: every non-fallback position is at
    least 10 from the center (squared: 100), and sepR holds pairwise in list
    order. -/
def PlacementInv (l : List (Vec3q × Bool)) : Prop :=
  (∀ p ∈ l, p.2 = false → 100 ≤ p.1.x * p.1.x + p.1.z * p.1.z) ∧ l.Pairwise sepR

/-! ## Concrete instances used by witnesses and counterexamples -/

/-- Oracle with every primitive zero (a sound square root at 0). -/
def mZero : JsMath := ⟨fun _ => 0, fun _ => 0, fun _ => 0, 0⟩

/-- Oracle whose square root is the identity (sound at 0 and 1). -/
def mIdSqrt : JsMath := ⟨fun q => q, fun _ => 0, fun _ => 0, 0⟩

/-- Oracle sound for the two radicands of the C1 scenario: 25/16 and 25. -/
def mC1 : JsMath :=
  ⟨fun q => if q = 25 / 16 then 5 / 4 else if q = 25 then 5 else 0,
   fun _ => 0, fun _ => 0, 0⟩

/-- Cube at (3, 3, 4) with target (15/4, 3, 5): planar distance to target
    exactly 5/4, planar distance from center exactly 5. -/
def cubeC1 : CubeState :=
  ⟨"cube", ⟨3, 3, 4⟩, ⟨0, 0, 0⟩, ⟨15 / 4, 3, 5⟩, false, 0, 1 / 2, 1, 0⟩

/-- Oracle sound for the radicands 1764 (root 42) and 1/4 (root 1/2). -/
def mC2 : JsMath :=
  ⟨fun q => if q = 1764 then 42 else if q = 1 / 4 then 1 / 2 else 0,
   fun _ => 1, fun _ => 0, 3⟩

/-- Cube at (42, 3, 0), exactly radius - 8 from the center for radius 50,
    with target (0, 3, 0) at planar distance 42. -/
def cubeC2 : CubeState :=
  ⟨"cube", ⟨42, 3, 0⟩, ⟨0, 0, 0⟩, ⟨0, 3, 0⟩, false, 0, 1 / 2, 1, 0⟩

/-- Oracle sound for the radicand 25 (root 5). -/
def mC6 : JsMath := ⟨fun q => if q = 25 then 5 else 0, fun _ => 0, fun _ => 0, 0⟩

/-- Input state after a touchstart at (100, 100) with identifier 1 on a
    300-wide window (the touch is outside the joystick area, so it is
    tracked). -/
def c5s0 : InputMgr := touchStartHandler 300 [⟨1, 100, 100⟩] initInputMgr

/-- c5s0 after a getLookDelta drain performed while the overlay is open. -/
def c5s1 : InputMgr := (getLookDelta true c5s0).2

/-- c5s1 after a touchmove of the tracked touch to (105, 103), delivered
    while the overlay is still open (the touchmove listener is not gated). -/
def c5s2 : InputMgr := touchMoveHandler [⟨1, 105, 103⟩] c5s1

/-! ## Theorems -/

/-- Squared 3D distance is symmetric. -/
theorem distSqV_comm (a b : Vec3q) : distSqV a b = distSqV b a := by
  unfold distSqV; ring

/-- C6: clampToBounds returns the position unchanged when the planar distance
    from the origin (the square-root oracle value d of the radicand the code
    computes) is at most radius - padding, and otherwise returns the position
    with x and z scaled by (radius - padding) / d and y preserved.  The
    embedded function is total for every rational input, including when
    radius is at most padding. -/
theorem c6_clampToBounds_spec (m : JsMath) (radius padding : ℚ) (p : Vec3q) (d : ℚ)
    (hd : d = m.sqrtQ (p.x * p.x + p.z * p.z)) :
    (d ≤ radius - padding → clampToBounds m radius p padding = p) ∧
    (radius - padding < d →
      clampToBounds m radius p padding =
        ⟨p.x * ((radius - padding) / d), p.y, p.z * ((radius - padding) / d)⟩) := by
  subst hd
  unfold clampToBounds
  constructor
  · intro h
    rw [if_neg (not_lt.mpr h)]
  · intro h
    rw [if_pos h]

/-- Witness for c6_clampToBounds_spec at p = (3, 1, 4), radius 50,
    padding 1, d = 5. -/
theorem c6_clampToBounds_spec_witness :
    ((5 : ℚ) ≤ 50 - 1 → clampToBounds mC6 50 ⟨3, 1, 4⟩ 1 = ⟨3, 1, 4⟩) ∧
    ((50 : ℚ) - 1 < 5 →
      clampToBounds mC6 50 ⟨3, 1, 4⟩ 1 =
        ⟨3 * ((50 - 1) / 5), 1, 4 * ((50 - 1) / 5)⟩) :=
  c6_clampToBounds_spec mC6 50 1 ⟨3, 1, 4⟩ 5 (by norm_num [mC6])

/-- In the retarget branch (planar distance to target below 0.5, or planar
    distance from center at least radius - 8), one simulateCubes iteration
    advances time, float and spin, keeps position.x and position.z, and
    replaces the target with the freshly sampled one. -/
theorem simulateCubeStep_retarget (m : JsMath) (R dt u1 u2 : ℚ) (c : CubeState)
    (h : m.sqrtQ ((c.targetPosition.x - c.position.x) * (c.targetPosition.x - c.position.x)
          + (c.targetPosition.z - c.position.z) * (c.targetPosition.z - c.position.z)) < 1 / 2
        ∨ R - 8 ≤ m.sqrtQ (c.position.x ^ 2 + c.position.z ^ 2)) :
    simulateCubeStep m R dt u1 u2 c =
      { c with
        time := c.time + dt
        position := ⟨c.position.x,
          3 + m.sinQ ((c.time + dt) * c.floatFrequency) * (3 / 10), c.position.z⟩
        rotation := ⟨m.sinQ ((c.time + dt) * (1 / 2)) * (1 / 10),
          c.rotation.y + c.rotationSpeed * dt, c.rotation.z⟩
        targetPosition := ⟨m.cosQ (u1 * m.piQ * 2) * (m.sqrtQ u2 * (R - 8)), 3,
          m.sinQ (u1 * m.piQ * 2) * (m.sqrtQ u2 * (R - 8))⟩ } := by
  simp only [simulateCubeStep]
  rw [if_pos h]

/-- In the seeking branch, one simulateCubes iteration moves the planar
    position toward the target by (delta / dist) * speed * deltaTime with
    speed = wanderSpeed * min (dist / 5) 1, and keeps the target. -/
theorem simulateCubeStep_seek (m : JsMath) (R dt u1 u2 : ℚ) (c : CubeState)
    (h : ¬ (m.sqrtQ ((c.targetPosition.x - c.position.x) * (c.targetPosition.x - c.position.x)
          + (c.targetPosition.z - c.position.z) * (c.targetPosition.z - c.position.z)) < 1 / 2
        ∨ R - 8 ≤ m.sqrtQ (c.position.x ^ 2 + c.position.z ^ 2))) :
    simulateCubeStep m R dt u1 u2 c =
      { c with
        time := c.time + dt
        position := ⟨c.position.x + (c.targetPosition.x - c.position.x)
            / m.sqrtQ ((c.targetPosition.x - c.position.x) * (c.targetPosition.x - c.position.x)
              + (c.targetPosition.z - c.position.z) * (c.targetPosition.z - c.position.z))
            * (c.wanderSpeed * min (m.sqrtQ ((c.targetPosition.x - c.position.x)
              * (c.targetPosition.x - c.position.x) + (c.targetPosition.z - c.position.z)
              * (c.targetPosition.z - c.position.z)) / 5) 1) * dt,
          3 + m.sinQ ((c.time + dt) * c.floatFrequency) * (3 / 10),
          c.position.z + (c.targetPosition.z - c.position.z)
            / m.sqrtQ ((c.targetPosition.x - c.position.x) * (c.targetPosition.x - c.position.x)
              + (c.targetPosition.z - c.position.z) * (c.targetPosition.z - c.position.z))
            * (c.wanderSpeed * min (m.sqrtQ ((c.targetPosition.x - c.position.x)
              * (c.targetPosition.x - c.position.x) + (c.targetPosition.z - c.position.z)
              * (c.targetPosition.z - c.position.z)) / 5) 1) * dt⟩
        rotation := ⟨m.sinQ ((c.time + dt) * (1 / 2)) * (1 / 10),
          c.rotation.y + c.rotationSpeed * dt, c.rotation.z⟩ } := by
  simp only [simulateCubeStep]
  rw [if_neg h]

/-- C7: a cube whose targetPosition coincides with its current planar
    position has planar distance 0 to its target, so the tick takes the
    retarget branch (distance below 0.5); the result is exactly the retarget
    record, whose planar position is unchanged — the direction normalization
    division of the movement branch is never evaluated. -/
theorem c7_zero_distance_retargets (m : JsMath) (R dt u1 u2 : ℚ) (c : CubeState)
    (htx : c.targetPosition.x = c.position.x)
    (htz : c.targetPosition.z = c.position.z)
    (h0 : m.sqrtQ 0 = 0) :
    simulateCubeStep m R dt u1 u2 c =
      { c with
        time := c.time + dt
        position := ⟨c.position.x,
          3 + m.sinQ ((c.time + dt) * c.floatFrequency) * (3 / 10), c.position.z⟩
        rotation := ⟨m.sinQ ((c.time + dt) * (1 / 2)) * (1 / 10),
          c.rotation.y + c.rotationSpeed * dt, c.rotation.z⟩
        targetPosition := ⟨m.cosQ (u1 * m.piQ * 2) * (m.sqrtQ u2 * (R - 8)), 3,
          m.sinQ (u1 * m.piQ * 2) * (m.sqrtQ u2 * (R - 8))⟩ } := by
  apply simulateCubeStep_retarget
  left
  have hz : (c.targetPosition.x - c.position.x) * (c.targetPosition.x - c.position.x)
      + (c.targetPosition.z - c.position.z) * (c.targetPosition.z - c.position.z) = 0 := by
    rw [htx, htz]; ring
  rw [hz, h0]
  norm_num

/-- Witness for c7_zero_distance_retargets: a concrete cube at (1, y, 2)
    targeting (1, y, 2), with the all-zero oracle. -/
theorem c7_zero_distance_retargets_witness :
    simulateCubeStep mZero 50 1 0 0
        ⟨"cube", ⟨1, 3, 2⟩, ⟨0, 0, 0⟩, ⟨1, 0, 2⟩, false, 0, 1 / 2, 1, 1 / 4⟩ =
      ⟨"cube", ⟨1, 3, 2⟩, ⟨0, 1 / 4, 0⟩, ⟨0, 3, 0⟩, false, 1, 1 / 2, 1, 1 / 4⟩ :=
  (c7_zero_distance_retargets mZero 50 1 0 0
      ⟨"cube", ⟨1, 3, 2⟩, ⟨0, 0, 0⟩, ⟨1, 0, 2⟩, false, 0, 1 / 2, 1, 1 / 4⟩
      rfl rfl rfl).trans (by norm_num [mZero])

/-- C10: a cube whose planar distance from the center (the oracle value,
    which the first two hypotheses pin to the true square root) is at least
    radius - 8 takes the retarget branch, so the tick leaves position.x,
    position.z, id, isHovered and the animation parameters unchanged —
    boundary containment works purely by retargeting, never by moving the
    cube back inside during the tick. -/
theorem c10_out_of_buffer_tick_frame (m : JsMath) (R dt u1 u2 : ℚ) (c : CubeState)
    (h1 : (m.sqrtQ (c.position.x ^ 2 + c.position.z ^ 2)) ^ 2
        = c.position.x ^ 2 + c.position.z ^ 2)
    (h2 : 0 ≤ m.sqrtQ (c.position.x ^ 2 + c.position.z ^ 2))
    (hd : R - 8 ≤ m.sqrtQ (c.position.x ^ 2 + c.position.z ^ 2)) :
    (simulateCubeStep m R dt u1 u2 c).position.x = c.position.x
    ∧ (simulateCubeStep m R dt u1 u2 c).position.z = c.position.z
    ∧ (simulateCubeStep m R dt u1 u2 c).id = c.id
    ∧ (simulateCubeStep m R dt u1 u2 c).isHovered = c.isHovered
    ∧ (simulateCubeStep m R dt u1 u2 c).wanderSpeed = c.wanderSpeed
    ∧ (simulateCubeStep m R dt u1 u2 c).floatFrequency = c.floatFrequency
    ∧ (simulateCubeStep m R dt u1 u2 c).rotationSpeed = c.rotationSpeed := by
  rw [simulateCubeStep_retarget m R dt u1 u2 c (Or.inr hd)]
  exact ⟨rfl, rfl, rfl, rfl, rfl, rfl, rfl⟩

/-- Witness for c10_out_of_buffer_tick_frame: cubeC2 sits at planar distance
    exactly 42 = 50 - 8 from the center. -/
theorem c10_out_of_buffer_tick_frame_witness :
    (simulateCubeStep mC2 50 1 0 (1 / 4) cubeC2).position.x = cubeC2.position.x
    ∧ (simulateCubeStep mC2 50 1 0 (1 / 4) cubeC2).position.z = cubeC2.position.z
    ∧ (simulateCubeStep mC2 50 1 0 (1 / 4) cubeC2).id = cubeC2.id
    ∧ (simulateCubeStep mC2 50 1 0 (1 / 4) cubeC2).isHovered = cubeC2.isHovered
    ∧ (simulateCubeStep mC2 50 1 0 (1 / 4) cubeC2).wanderSpeed = cubeC2.wanderSpeed
    ∧ (simulateCubeStep mC2 50 1 0 (1 / 4) cubeC2).floatFrequency = cubeC2.floatFrequency
    ∧ (simulateCubeStep mC2 50 1 0 (1 / 4) cubeC2).rotationSpeed = cubeC2.rotationSpeed :=
  c10_out_of_buffer_tick_frame mC2 50 1 0 (1 / 4) cubeC2
    (by norm_num [mC2, cubeC2]) (by norm_num [mC2, cubeC2]) (by norm_num [mC2, cubeC2])

/-- C5 (amended): while the overlay gate is open, getMovement returns the
    zero vector, getLookDelta returns the zero vector while draining the
    stored delta, and consumeJump returns false while clearing the latch;
    consequently a delta drained by a call made during the open period is
    not returned by the next getLookDelta after the overlay closes.  (The
    original universal claim fails for touch input: see the
    counterexample.) -/
theorem c5_overlay_gate_neutral (m : JsMath) (s : InputMgr) :
    getMovement m true s = (0, 0)
    ∧ (getLookDelta true s).1 = (0, 0)
    ∧ (getLookDelta true s).2.lookDeltaX = 0
    ∧ (getLookDelta true s).2.lookDeltaY = 0
    ∧ (consumeJump true s).1 = false
    ∧ (consumeJump true s).2.jumpRequested = false
    ∧ (getLookDelta false (getLookDelta true s).2).1 = (0, 0) := by
  simp [getMovement, getLookDelta, consumeJump]

/-- Counterexample to C5 as stated: starting from a fresh input manager, a
    touchstart is tracked, the overlay opens, getLookDelta drains while open,
    then a touchmove of the tracked touch arrives while the overlay is still
    open (the touch listeners are not overlay-gated); after the overlay
    closes, getLookDelta returns the (5, 3) delta accumulated during the open
    period — not the neutral value the claim promises. -/
theorem c5_overlay_gate_counterexample :
    (getLookDelta false c5s2).1 = (5, 3) ∧ ((5 : ℚ), (3 : ℚ)) ≠ ((0 : ℚ), (0 : ℚ)) := by
  constructor
  · have h0 : c5s0 = ⟨[], 0, 0, false, false, false, 100, 100, some 1, 0, 0⟩ := by
      simp [c5s0, initInputMgr, touchStartHandler, List.find?]
      norm_num
    have h1 : c5s1 = ⟨[], 0, 0, false, false, false, 100, 100, some 1, 0, 0⟩ := by
      rw [c5s1, h0]; simp [getLookDelta]
    have h2 : c5s2 = ⟨[], 5, 3, false, false, false, 105, 103, some 1, 0, 0⟩ := by
      rw [c5s2, h1]; simp [touchMoveHandler, List.find?]; norm_num
    rw [h2]; simp [getLookDelta]
  · intro h
    rw [Prod.mk.injEq] at h
    exact absurd h.1 (by norm_num)

/-- C8: with the overlay gate closed, after a single jump request two
    consecutive consumeJump calls return true then false — the latch is
    cleared exactly once on consumption. -/
theorem c8_jump_one_shot (s : InputMgr) :
    (consumeJump false (requestJump s)).1 = true
    ∧ (consumeJump false (consumeJump false (requestJump s)).2).1 = false := by
  simp [consumeJump, requestJump]

/-- C9: a keyup delivered while the overlay is visible leaves the
    pressed-key set (indeed the whole input state) unchanged; consequently,
    after pressing KeyW with the overlay closed and releasing it while the
    overlay was open, getMovement still reports forward movement (0, 1)
    once the overlay is closed again. -/
theorem c9_keyup_ignored_while_open :
    (∀ (s : InputMgr) (code : String), keyupHandler true code s = s)
    ∧ getMovement mIdSqrt false
        (keyupHandler true ("KeyW") (keydownHandler false ("KeyW") initInputMgr)) = (0, 1)
    ∧ ((0 : ℚ), (1 : ℚ)) ≠ ((0 : ℚ), (0 : ℚ)) := by
  refine ⟨fun s code => by simp [keyupHandler], ?_, ?_⟩
  · have h1 : keydownHandler false ("KeyW") initInputMgr =
        ⟨["KeyW"], 0, 0, false, false, false, 0, 0, none, 0, 0⟩ := by
      simp [keydownHandler, initInputMgr]
    rw [h1]
    simp [keyupHandler, getMovement, mIdSqrt]
  · intro h
    rw [Prod.mk.injEq] at h
    exact absurd h.2 (by norm_num)

/-- C1 (amended): in the seeking branch (distance to target at least 0.5 and
    distance from center below radius - 8, both as oracle square roots of the
    radicands the code computes), the cube moves toward its target at speed
    wanderSpeed * min(dist / 5, 1) — a linear ramp saturating at distance 5,
    not the spec's smoothstep easing — and keeps its targetPosition. -/
theorem c1_seek_speed_linear (m : JsMath) (R dt u1 u2 : ℚ) (c : CubeState) (d : ℚ)
    (hd : d = m.sqrtQ ((c.targetPosition.x - c.position.x) * (c.targetPosition.x - c.position.x)
        + (c.targetPosition.z - c.position.z) * (c.targetPosition.z - c.position.z)))
    (h1 : ¬ d < 1 / 2)
    (h2 : m.sqrtQ (c.position.x ^ 2 + c.position.z ^ 2) < R - 8) :
    (simulateCubeStep m R dt u1 u2 c).position.x
        = c.position.x + (c.targetPosition.x - c.position.x) / d
            * (c.wanderSpeed * min (d / 5) 1) * dt
    ∧ (simulateCubeStep m R dt u1 u2 c).position.z
        = c.position.z + (c.targetPosition.z - c.position.z) / d
            * (c.wanderSpeed * min (d / 5) 1) * dt
    ∧ (simulateCubeStep m R dt u1 u2 c).targetPosition = c.targetPosition := by
  subst hd
  rw [simulateCubeStep_seek m R dt u1 u2 c (not_or.mpr ⟨h1, not_le.mpr h2⟩)]
  exact ⟨rfl, rfl, rfl⟩

/-- Witness for c1_seek_speed_linear: cubeC1 at distance 5/4 from its target
    and distance 5 from the center, radius 50. -/
theorem c1_seek_speed_linear_witness :
    (simulateCubeStep mC1 50 1 0 0 cubeC1).position.x
        = cubeC1.position.x + (cubeC1.targetPosition.x - cubeC1.position.x) / (5 / 4)
            * (cubeC1.wanderSpeed * min ((5 / 4) / 5) 1) * 1
    ∧ (simulateCubeStep mC1 50 1 0 0 cubeC1).position.z
        = cubeC1.position.z + (cubeC1.targetPosition.z - cubeC1.position.z) / (5 / 4)
            * (cubeC1.wanderSpeed * min ((5 / 4) / 5) 1) * 1
    ∧ (simulateCubeStep mC1 50 1 0 0 cubeC1).targetPosition = cubeC1.targetPosition :=
  c1_seek_speed_linear mC1 50 1 0 0 cubeC1 (5 / 4)
    (by norm_num [mC1, cubeC1]) (by norm_num) (by norm_num [mC1, cubeC1])

/-- Counterexample to C1 as stated: for cubeC1 (planar distance 5/4 to its
    target, wanderSpeed 1/2, deltaTime 1) the code moves x to 3 + 3/40
    (linear speed factor min(dist/5, 1) = 1/4), while the claimed smoothstep
    easing ease(min(dist,5)/5) = ease(1/4) = 1/8 would move x to 3 + 3/80;
    the two disagree. -/
theorem c1_smoothstep_counterexample :
    (simulateCubeStep mC1 50 1 0 0 cubeC1).position.x = 3 + 3 / 40
    ∧ cubeC1.position.x + (cubeC1.targetPosition.x - cubeC1.position.x) / (5 / 4)
        * (cubeC1.wanderSpeed * specEase (min (5 / 4) 5 / 5)) * 1 = 3 + 3 / 80
    ∧ ((3 : ℚ) + 3 / 40) ≠ 3 + 3 / 80 := by
  refine ⟨?_, ?_, by norm_num⟩
  · rw [(simulateCubeStep_seek mC1 50 1 0 0 cubeC1 (by norm_num [mC1, cubeC1]))]
    show cubeC1.position.x + _ = _
    norm_num [mC1, cubeC1, min_def]
  · norm_num [cubeC1, specEase, min_def]

/-- C2 (amended): the retarget condition of a simulateCubes tick is
    dist < 0.5 OR distFromCenter at least radius - 8; this equals the claimed
    condition (dist < 0.5 OR isInBounds(pos, 8) false) only with the extra
    boundary case distFromCenter = radius - 8, where isInBounds still holds
    yet the code retargets.  When the condition holds the new target is
    (cos(U1·2π)·r, 3, sin(U1·2π)·r) with r = sqrt(U2)·(radius - 8) — so
    r² = U2·(radius - 8)², uniform-area sampling, not linear in U2 — and the
    planar position does not move; otherwise the target is kept. -/
theorem c2_retarget_condition (m : JsMath) (R dt u1 u2 : ℚ) (c : CubeState) (d dfc : ℚ)
    (hd : d = m.sqrtQ ((c.targetPosition.x - c.position.x) * (c.targetPosition.x - c.position.x)
        + (c.targetPosition.z - c.position.z) * (c.targetPosition.z - c.position.z)))
    (hdfc : dfc = m.sqrtQ (c.position.x ^ 2 + c.position.z ^ 2)) :
    ((d < 1 / 2 ∨ R - 8 ≤ dfc)
        ↔ (d < 1 / 2 ∨ ¬ isInBounds m R c.position 8 ∨ dfc = R - 8))
    ∧ ((d < 1 / 2 ∨ R - 8 ≤ dfc) →
        (simulateCubeStep m R dt u1 u2 c).targetPosition
            = ⟨m.cosQ (u1 * m.piQ * 2) * (m.sqrtQ u2 * (R - 8)), 3,
               m.sinQ (u1 * m.piQ * 2) * (m.sqrtQ u2 * (R - 8))⟩
          ∧ (simulateCubeStep m R dt u1 u2 c).position.x = c.position.x
          ∧ (simulateCubeStep m R dt u1 u2 c).position.z = c.position.z)
    ∧ (¬ (d < 1 / 2 ∨ R - 8 ≤ dfc) →
        (simulateCubeStep m R dt u1 u2 c).targetPosition = c.targetPosition)
    ∧ ((m.sqrtQ u2) ^ 2 = u2 → (m.sqrtQ u2 * (R - 8)) ^ 2 = u2 * (R - 8) ^ 2) := by
  subst hd
  subst hdfc
  refine ⟨?_, ?_, ?_, ?_⟩
  · unfold isInBounds
    have hxx : c.position.x * c.position.x + c.position.z * c.position.z
        = c.position.x ^ 2 + c.position.z ^ 2 := by ring
    rw [hxx, not_le]
    constructor
    · rintro (h | h)
      · exact Or.inl h
      · rcases lt_or_eq_of_le h with h1 | h1
        · exact Or.inr (Or.inl h1)
        · exact Or.inr (Or.inr h1.symm)
    · rintro (h | h | h)
      · exact Or.inl h
      · exact Or.inr (le_of_lt h)
      · exact Or.inr (le_of_eq h.symm)
  · intro hcond
    rw [simulateCubeStep_retarget m R dt u1 u2 c hcond]
    exact ⟨rfl, rfl, rfl⟩
  · intro hcond
    rw [simulateCubeStep_seek m R dt u1 u2 c hcond]
  · intro h
    rw [mul_pow, h]

/-- Witness for c2_retarget_condition at cubeC2 (distance 42 to target,
    distance exactly 42 = 50 - 8 from the center). -/
theorem c2_retarget_condition_witness :
    (((42 : ℚ) < 1 / 2 ∨ (50 : ℚ) - 8 ≤ 42)
        ↔ ((42 : ℚ) < 1 / 2 ∨ ¬ isInBounds mC2 50 cubeC2.position 8 ∨ (42 : ℚ) = 50 - 8))
    ∧ (((42 : ℚ) < 1 / 2 ∨ (50 : ℚ) - 8 ≤ 42) →
        (simulateCubeStep mC2 50 1 0 (1 / 4) cubeC2).targetPosition
            = ⟨mC2.cosQ (0 * mC2.piQ * 2) * (mC2.sqrtQ (1 / 4) * (50 - 8)), 3,
               mC2.sinQ (0 * mC2.piQ * 2) * (mC2.sqrtQ (1 / 4) * (50 - 8))⟩
          ∧ (simulateCubeStep mC2 50 1 0 (1 / 4) cubeC2).position.x = cubeC2.position.x
          ∧ (simulateCubeStep mC2 50 1 0 (1 / 4) cubeC2).position.z = cubeC2.position.z)
    ∧ (¬ ((42 : ℚ) < 1 / 2 ∨ (50 : ℚ) - 8 ≤ 42) →
        (simulateCubeStep mC2 50 1 0 (1 / 4) cubeC2).targetPosition = cubeC2.targetPosition)
    ∧ ((mC2.sqrtQ (1 / 4)) ^ 2 = 1 / 4 →
        (mC2.sqrtQ (1 / 4) * ((50 : ℚ) - 8)) ^ 2 = 1 / 4 * ((50 : ℚ) - 8) ^ 2) :=
  c2_retarget_condition mC2 50 1 0 (1 / 4) cubeC2 42 42
    (by norm_num [mC2, cubeC2]) (by norm_num [mC2, cubeC2])

/-- Counterexample to C2 as stated: cubeC2 sits at planar distance exactly
    radius - 8 from the center, so isInBounds(pos, 8) still holds and the
    distance to its target is 42, far above 0.5 — yet the tick picks a new
    target (the targetPosition changes), contradicting the claimed
    if-and-only-if. -/
theorem c2_boundary_counterexample :
    isInBounds mC2 50 cubeC2.position 8
    ∧ ¬ (mC2.sqrtQ ((cubeC2.targetPosition.x - cubeC2.position.x)
          * (cubeC2.targetPosition.x - cubeC2.position.x)
          + (cubeC2.targetPosition.z - cubeC2.position.z)
          * (cubeC2.targetPosition.z - cubeC2.position.z)) < 1 / 2)
    ∧ (simulateCubeStep mC2 50 1 0 (1 / 4) cubeC2).targetPosition ≠ cubeC2.targetPosition := by
  refine ⟨by norm_num [isInBounds, mC2, cubeC2], by norm_num [mC2, cubeC2], ?_⟩
  rw [simulateCubeStep_retarget mC2 50 1 0 (1 / 4) cubeC2 (by norm_num [mC2, cubeC2])]
  intro h
  have hx := congrArg Vec3q.x (congrArg CubeState.targetPosition (Eq.refl _) ▸ h)
  revert hx
  norm_num [mC2, cubeC2]

/-- The rest state (y = groundY, velocityY = 0, no pending jump) is a fixed
    point of handleJump for every nonnegative deltaTime. -/
theorem handleJump_rest (dt : ℚ) (hdt : 0 ≤ dt) :
    handleJump dt ⟨17 / 10, 0, false⟩ = ⟨17 / 10, 0, false⟩ := by
  simp only [handleJump]
  norm_num
  intro h2
  have h3 : dt * dt = 0 := le_antisymm (by nlinarith) (mul_self_nonneg dt)
  exact mul_self_eq_zero.mp h3

/-- Folding any list of nonnegative tick lengths over handleJump keeps the
    rest state. -/
theorem foldl_handleJump_rest (dts : List ℚ) (h : ∀ d ∈ dts, 0 ≤ d) :
    dts.foldl (fun s d => handleJump d s) ⟨17 / 10, 0, false⟩ = ⟨17 / 10, 0, false⟩ := by
  induction dts with
  | nil => rfl
  | cons a l ih =>
    rw [List.foldl_cons, handleJump_rest a (h a (List.mem_cons_self a l))]
    exact ih (fun d hd => h d (List.mem_cons_of_mem a hd))

/-- Iterating handleJump at a fixed tick of 1/10 keeps the rest state. -/
theorem iterate_handleJump_rest (k : ℕ) :
    Nat.iterate (handleJump (1 / 10)) k ⟨17 / 10, 0, false⟩ = ⟨17 / 10, 0, false⟩ := by
  induction k with
  | zero => rfl
  | succ n ih =>
    rw [Function.iterate_succ_apply, handleJump_rest (1 / 10) (by norm_num), ih]

/-- Falling from y = 10 at rest with ticks of 1/10 s reaches the clamped
    ground state after exactly 9 ticks. -/
theorem handleJump_fall_scenario :
    Nat.iterate (handleJump (1 / 10)) 9 ⟨10, 0, false⟩ = ⟨17 / 10, 0, false⟩ := by
  have h1 : handleJump (1 / 10) ⟨10, 0, false⟩ = ⟨49 / 5, -2, false⟩ := by
    norm_num [handleJump]
  have h2 : handleJump (1 / 10) ⟨49 / 5, -2, false⟩ = ⟨47 / 5, -4, false⟩ := by
    norm_num [handleJump]
  have h3 : handleJump (1 / 10) ⟨47 / 5, -4, false⟩ = ⟨44 / 5, -6, false⟩ := by
    norm_num [handleJump]
  have h4 : handleJump (1 / 10) ⟨44 / 5, -6, false⟩ = ⟨8, -8, false⟩ := by
    norm_num [handleJump]
  have h5 : handleJump (1 / 10) ⟨8, -8, false⟩ = ⟨7, -10, false⟩ := by
    norm_num [handleJump]
  have h6 : handleJump (1 / 10) ⟨7, -10, false⟩ = ⟨29 / 5, -12, false⟩ := by
    norm_num [handleJump]
  have h7 : handleJump (1 / 10) ⟨29 / 5, -12, false⟩ = ⟨22 / 5, -14, false⟩ := by
    norm_num [handleJump]
  have h8 : handleJump (1 / 10) ⟨22 / 5, -14, false⟩ = ⟨14 / 5, -16, false⟩ := by
    norm_num [handleJump]
  have h9 : handleJump (1 / 10) ⟨14 / 5, -16, false⟩ = ⟨17 / 10, 0, false⟩ := by
    norm_num [handleJump]
  show (handleJump (1 / 10))^[9] ⟨10, 0, false⟩ = ⟨17 / 10, 0, false⟩
  rw [show (9 : ℕ) = 8 + 1 from rfl, Function.iterate_succ_apply, h1,
      show (8 : ℕ) = 7 + 1 from rfl, Function.iterate_succ_apply, h2,
      show (7 : ℕ) = 6 + 1 from rfl, Function.iterate_succ_apply, h3,
      show (6 : ℕ) = 5 + 1 from rfl, Function.iterate_succ_apply, h4,
      show (5 : ℕ) = 4 + 1 from rfl, Function.iterate_succ_apply, h5,
      show (4 : ℕ) = 3 + 1 from rfl, Function.iterate_succ_apply, h6,
      show (3 : ℕ) = 2 + 1 from rfl, Function.iterate_succ_apply, h7,
      show (2 : ℕ) = 1 + 1 from rfl, Function.iterate_succ_apply, h8,
      show (1 : ℕ) = 0 + 1 from rfl, Function.iterate_succ_apply, h9,
      Function.iterate_zero_apply]

/-- C4: (1) whenever the integrated vertical position falls below
    groundY = 1.7, handleJump clamps position.y to exactly 1.7 and zeroes
    velocityY; (2) starting at rest on the ground with no jump pending,
    position.y stays at least groundY after any sequence of ticks with
    nonnegative deltaTime; (3) a player falling from y = 10 under
    gravity = 20 with ticks of 1/10 s reaches y = 1.7 with velocityY 0 after
    9 ticks and (4) stays there on every later tick. -/
theorem c4_player_ground_physics :
    (∀ (dt : ℚ) (s : PlayerPhys),
        s.y + ((if s.y ≤ 17 / 10 ∧ s.jumpRequested = true then (8 : ℚ) else s.vy)
            - 20 * dt) * dt < 17 / 10 →
        (handleJump dt s).y = 17 / 10 ∧ (handleJump dt s).vy = 0)
    ∧ (∀ (dts : List ℚ), (∀ d ∈ dts, 0 ≤ d) →
        (17 : ℚ) / 10 ≤ (dts.foldl (fun s d => handleJump d s) ⟨17 / 10, 0, false⟩).y)
    ∧ Nat.iterate (handleJump (1 / 10)) 9 ⟨10, 0, false⟩ = ⟨17 / 10, 0, false⟩
    ∧ (∀ k : ℕ, Nat.iterate (handleJump (1 / 10)) (9 + k) ⟨10, 0, false⟩
        = ⟨17 / 10, 0, false⟩) := by
  refine ⟨?_, ?_, handleJump_fall_scenario, ?_⟩
  · intro dt s h
    simp only [handleJump]
    rw [if_pos h]
    exact ⟨rfl, rfl⟩
  · intro dts h
    rw [foldl_handleJump_rest dts h]
  · intro k
    rw [add_comm 9 k, Function.iterate_add_apply, handleJump_fall_scenario,
        iterate_handleJump_rest k]

/-- Witness for c4_player_ground_physics: the clamp conjunct applied at
    dt = 1/10 to a player at rest at y = 1 (integration gives 0.8 < 1.7),
    and the ground invariant applied to the one-tick list [1/10]. -/
theorem c4_player_ground_physics_witness :
    ((handleJump (1 / 10) ⟨1, 0, false⟩).y = 17 / 10
      ∧ (handleJump (1 / 10) ⟨1, 0, false⟩).vy = 0)
    ∧ (17 : ℚ) / 10 ≤
        (List.foldl (fun s d => handleJump d s) ⟨17 / 10, 0, false⟩ [1 / 10]).y :=
  ⟨c4_player_ground_physics.1 (1 / 10) ⟨1, 0, false⟩ (by norm_num),
   c4_player_ground_physics.2.1 [1 / 10] (by norm_num)⟩

/-- Acceptance by isValidPosition means: at least 10 (squared 100) from the
    center and at least 8 (squared 64) from every already-placed position. -/
theorem isValid_spec {pos : Vec3q} {existing : List Vec3q}
    (h : isValidPosition pos existing = true) :
    100 ≤ pos.x * pos.x + pos.z * pos.z ∧ ∀ q ∈ existing, 64 ≤ distSqV pos q := by
  unfold isValidPosition at h
  split at h
  · exact absurd h (by simp)
  · rename_i hc
    rw [List.all_eq_true] at h
    exact ⟨not_lt.mp hc, fun q hq => of_decide_eq_true (h q hq)⟩

/-- The empty accumulator satisfies the placement invariant. -/
theorem placementInv_nil : PlacementInv [] :=
  ⟨by simp, List.Pairwise.nil⟩

/-- Appending a position accepted by isValidPosition (tagged non-fallback)
    preserves the placement invariant. -/
theorem placementInv_push_valid {acc : List (Vec3q × Bool)} {pos : Vec3q}
    (hv : isValidPosition pos (acc.map Prod.fst) = true)
    (hI : PlacementInv acc) : PlacementInv (acc ++ [(pos, false)]) := by
  obtain ⟨hc, hp⟩ := hI
  obtain ⟨hcen, hsep⟩ := isValid_spec hv
  constructor
  · intro p hm hf
    rcases List.mem_append.mp hm with h | h
    · exact hc p h hf
    · rw [List.mem_singleton] at h
      subst h
      exact hcen
  · rw [List.pairwise_append]
    refine ⟨hp, List.pairwise_singleton _ _, ?_⟩
    intro a ha b hb
    rw [List.mem_singleton] at hb
    subst hb
    intro _
    rw [distSqV_comm]
    exact hsep a.1 (List.mem_map_of_mem Prod.fst ha)

/-- Appending a fallback-tagged position preserves the placement invariant
    (its obligations are all vacuous for a fallback position). -/
theorem placementInv_push_fallback {acc : List (Vec3q × Bool)} {pos : Vec3q}
    (hI : PlacementInv acc) : PlacementInv (acc ++ [(pos, true)]) := by
  obtain ⟨hc, hp⟩ := hI
  constructor
  · intro p hm hf
    rcases List.mem_append.mp hm with h | h
    · exact hc p h hf
    · rw [List.mem_singleton] at h
      subst h
      exact absurd hf (by simp)
  · rw [List.pairwise_append]
    refine ⟨hp, List.pairwise_singleton _ _, ?_⟩
    intro a ha b hb
    rw [List.mem_singleton] at hb
    subst hb
    intro hf
    exact absurd hf (by simp)

/-- The inner (per-ring slot) loop preserves the placement invariant: it only
    ever appends isValidPosition-accepted, non-fallback positions. -/
theorem innerLoop_inv (cfg : PlaceCfg) (count : ℕ) (maxRadius ringRadius : ℚ)
    (rings ring cubesInRing : ℕ) :
    ∀ (fuel i : ℕ) (acc : List (Vec3q × Bool)) (k : ℕ), PlacementInv acc →
      PlacementInv (innerLoop cfg count maxRadius ringRadius rings ring cubesInRing
        i fuel acc k).1 := by
  intro fuel
  induction fuel with
  | zero => intro i acc k h; exact h
  | succ n ih =>
    intro i acc k h
    simp only [innerLoop]
    split_ifs with h1 h2
    · exact h
    · exact ih (i + 1) _ (k + 2) (placementInv_push_valid h2 h)
    · exact ih (i + 1) acc (k + 2) h

/-- The ring loop preserves the placement invariant. -/
theorem ringLoop_inv (cfg : PlaceCfg) (count : ℕ) (maxRadius : ℚ) (rings : ℕ) :
    ∀ (fuel ring : ℕ) (acc : List (Vec3q × Bool)) (k : ℕ), PlacementInv acc →
      PlacementInv (ringLoop cfg count maxRadius rings ring fuel acc k).1 := by
  intro fuel
  induction fuel with
  | zero => intro ring acc k h; exact h
  | succ n ih =>
    intro ring acc k h
    simp only [ringLoop]
    split_ifs with h1
    · exact h
    · exact ih (ring + 1) _ _ (innerLoop_inv cfg count maxRadius _ rings ring _ _ 0 acc k h)

/-- findRandomValidPosition only ever returns a position accepted by
    isValidPosition against the existing positions. -/
theorem findRandomValid_some (cfg : PlaceCfg) (maxRadius : ℚ) :
    ∀ (fuel : ℕ) (existing : List Vec3q) (k : ℕ) (p : Vec3q) (k1 : ℕ),
      findRandomValid cfg maxRadius fuel existing k = (some p, k1) →
      isValidPosition p existing = true := by
  intro fuel
  induction fuel with
  | zero =>
    intro existing k p k1 h
    simp [findRandomValid] at h
  | succ n ih =>
    intro existing k p k1 h
    simp only [findRandomValid] at h
    split_ifs at h with h1
    · rw [Prod.mk.injEq] at h
      obtain ⟨hsome, -⟩ := h
      rw [Option.some.injEq] at hsome
      rw [← hsome]
      exact h1
    · exact ih existing (k + 2) p k1 h

/-- The fill loop preserves the placement invariant: successful random
    placements are validated, and fallback placements are tagged true so the
    invariant demands nothing of them. -/
theorem fillLoop_inv (cfg : PlaceCfg) (count : ℕ) (maxRadius : ℚ) :
    ∀ (fuel : ℕ) (acc : List (Vec3q × Bool)) (k : ℕ), PlacementInv acc →
      PlacementInv (fillLoop cfg count maxRadius fuel acc k) := by
  intro fuel
  induction fuel with
  | zero => intro acc k h; exact h
  | succ n ih =>
    intro acc k h
    simp only [fillLoop]
    split_ifs with h1
    · exact h
    · rcases hfr : findRandomValid cfg maxRadius 50 (acc.map Prod.fst) k with ⟨op, k1⟩
      rcases op with _ | p
      · exact ih _ (k1 + 2) (placementInv_push_fallback h)
      · exact ih _ k1
          (placementInv_push_valid (findRandomValid_some cfg maxRadius 50 _ k p k1 hfr) h)

/-- C3: for every count and every random stream / math oracle, the tagged
    planner output satisfies: any two positions that are both non-fallback
    are at least 8 apart (squared distance at least 64 — equivalent since the
    thresholds are nonnegative), and every non-fallback position is at least
    10 from the center (squared at least 100). -/
theorem c3_placement_separation (cfg : PlaceCfg) (count : ℕ) :
    ((generateDistributedPositionsTagged cfg count).Pairwise
        (fun a b => a.2 = false → b.2 = false → 64 ≤ distSqV a.1 b.1))
    ∧ (∀ p ∈ generateDistributedPositionsTagged cfg count,
        p.2 = false → 100 ≤ p.1.x * p.1.x + p.1.z * p.1.z) := by
  have h : PlacementInv (generateDistributedPositionsTagged cfg count) := by
    simp only [generateDistributedPositionsTagged]
    exact fillLoop_inv cfg count _ count _ _
      (ringLoop_inv cfg count _ (ceilSqrt count) (ceilSqrt count) 1 [] 0 placementInv_nil)
  exact ⟨h.2.imp (fun hab hfa hfb => hab hfb), h.1⟩
